import Mathlib

/-!
A shallow embedding of the firma-json service (src/main.go): a JSON value
model, the canonicalization performed by Go's `json.Marshal` on decoded
generic values (objects re-serialized with sorted keys, no whitespace),
standard base64 encoding/decoding, and the two HTTP handlers `signHandler`
and `verifyHandler`.  The external Cloud KMS collaborator (`MacSign` /
`MacVerify`) is modelled as a pair of behaviour functions, and each handler
additionally reports the list of collaborator calls it made, so that
"the collaborator is never called" is a provable statement.
-/

/-- A decoded JSON value, as produced by Go's `json.Unmarshal` into
`interface{}` / `map[string]interface{}`.  Objects are association lists
(Go maps are unordered; decoding a JSON text yields distinct keys).
Go decodes every JSON number to a `float64`; every finite `float64` is a
rational, and the claims settled against this model use only that the
decoded numeric value determines the output, so the number payload is
modelled as a rational. -/
inductive Json where
  | null
  | bool (b : Bool)
  | num (q : Rat)
  | str (s : String)
  | arr (elems : List Json)
  | obj (entries : List (String × Json))

/-- Byte-wise (here: codepoint-wise, which induces the same lexicographic
order as UTF-8 bytes) comparison of two character lists, `true` when the
first is ≤ the second.  This is the order `sort.Strings` uses on the keys
of a Go map inside `encoding/json`. -/
def charListLe : List Char → List Char → Bool
  | [], _ => true
  | _ :: _, [] => false
  | a :: as, b :: bs =>
    if a.toNat < b.toNat then true
    else if a.toNat = b.toNat then charListLe as bs
    else false

/-- Lexicographic string comparison (Go's `s1 <= s2` on UTF-8 bytes). -/
def strLe (a b : String) : Bool := charListLe a.data b.data

/-- Order on object entries: by key, the order in which `encoding/json`
emits the fields of a decoded map. -/
def keyLe (a b : String × Json) : Prop := strLe a.1 b.1 = true

instance : DecidableRel keyLe := fun _ _ => inferInstanceAs (Decidable (_ = true))

/-- The strict version of `keyLe`: keys strictly increasing. -/
def keyLt (a b : String × Json) : Prop := keyLe a b ∧ a.1 ≠ b.1

/-- Sort an object's entries by key, the way `encoding/json` emits a
decoded `map[string]interface{}` (keys are distinct, so any sort that
orders the keys produces the same list; insertion sort is used here). -/
def sortEntries (es : List (String × Json)) : List (String × Json) :=
  es.insertionSort keyLe

mutual

/-- The key-ordering phase of `json.Marshal` on a decoded value: every
object's entries are put in sorted key order, recursively; arrays keep
their element order. -/
def canon : Json → Json
  | .null => .null
  | .bool b => .bool b
  | .num q => .num q
  | .str s => .str s
  | .arr xs => .arr (canonList xs)
  | .obj es => .obj (sortEntries (canonEntries es))
termination_by structural j => j

/-- `canon` mapped over the elements of an array. -/
def canonList : List Json → List Json
  | [] => []
  | x :: xs => canon x :: canonList xs
termination_by structural xs => xs

/-- `canon` mapped over the values of an object's entries. -/
def canonEntries : List (String × Json) → List (String × Json)
  | [] => []
  | (k, v) :: es => (k, canon v) :: canonEntries es
termination_by structural es => es

end

/-- One lowercase hex digit, as Go's `encoding/json` writes `\u00xx`
escapes. -/
def hexDigit (n : Nat) : String :=
  String.singleton (Char.ofNat (if n < 10 then 48 + n else 87 + n))

/-- Go's `encoding/json` string escaping (HTML escaping on, the default
used by `json.Marshal` in main.go): quote and backslash are escaped,
newline/carriage-return/tab get two-character escapes, `<`, `>`, `&` and
the remaining control characters become `\u00xx`. -/
def escapeChar (c : Char) : String :=
  if c = '"' then "\\\""
  else if c = '\\' then "\\\\"
  else if c = '\n' then "\\n"
  else if c = '\r' then "\\r"
  else if c = '\t' then "\\t"
  else if c = '<' then "\\u003c"
  else if c = '>' then "\\u003e"
  else if c = '&' then "\\u0026"
  else if c.toNat < 32 then "\\u00" ++ hexDigit (c.toNat / 16) ++ hexDigit (c.toNat % 16)
  else String.singleton c

/-- A JSON string literal as `encoding/json` emits it. -/
def renderString (s : String) : String :=
  "\"" ++ String.join (s.data.map escapeChar) ++ "\""

/-- A JSON number as `encoding/json` emits it.  Go renders the `float64`
with strconv's shortest round-trip decimal form; that digit-level format is
abstracted here (the claims settled below use only that the rendering is a
function of the decoded numeric value).  Integer values, the common case,
render as their decimal digits exactly as Go does. -/
def renderNum (q : Rat) : String :=
  if q.den = 1 then toString q.num else toString q

mutual

/-- Serialization of an already key-ordered value: compact JSON text with
no insignificant whitespace, exactly the separators `encoding/json`
writes. -/
def render : Json → String
  | .null => "null"
  | .bool true => "true"
  | .bool false => "false"
  | .num q => renderNum q
  | .str s => renderString s
  | .arr xs => "[" ++ renderList xs ++ "]"
  | .obj es => "\x7b" ++ renderEntries es ++ "\x7d"
termination_by structural j => j

/-- Comma-separated rendering of array elements. -/
def renderList : List Json → String
  | [] => ""
  | [x] => render x
  | x :: y :: xs => render x ++ "," ++ renderList (y :: xs)
termination_by structural xs => xs

/-- Comma-separated rendering of object entries, `"key":value`. -/
def renderEntries : List (String × Json) → String
  | [] => ""
  | [(k, v)] => renderString k ++ ":" ++ render v
  | (k, v) :: e :: es => renderString k ++ ":" ++ render v ++ "," ++ renderEntries (e :: es)
termination_by structural es => es

end

/-- `json.Marshal` on a decoded generic value: emit every object with its
keys in sorted order, compactly.  This single function is the
canonicalization step; main.go calls it both at line 85 (sign path) and at
line 133 (verify path). -/
def jsonMarshal (v : Json) : String := render (canon v)

/-- Key distinctness of one entry list (Go maps cannot repeat a key). -/
def keyNodup : List (String × Json) → Bool
  | [] => true
  | (k, _) :: es => !(es.any (fun p => p.1 == k)) && keyNodup es

mutual

/-- Every object anywhere inside the value has pairwise distinct keys.
Any value decoded by `json.Unmarshal` satisfies this: Go object decoding
keeps one binding per key. -/
def nodupKeys : Json → Bool
  | .null => true
  | .bool _ => true
  | .num _ => true
  | .str _ => true
  | .arr xs => nodupKeysList xs
  | .obj es => keyNodup es && nodupKeysEntries es
termination_by structural j => j

/-- `nodupKeys` over the elements of an array. -/
def nodupKeysList : List Json → Bool
  | [] => true
  | x :: xs => nodupKeys x && nodupKeysList xs
termination_by structural xs => xs

/-- `nodupKeys` over the values of an object's entries. -/
def nodupKeysEntries : List (String × Json) → Bool
  | [] => true
  | (_, v) :: es => nodupKeys v && nodupKeysEntries es
termination_by structural es => es

end

mutual

/-- Structural equality of decoded values, the relation "two JSON texts
decode to the same logical content": identical scalars, arrays equal
element by element in order, objects equal as key/value collections
regardless of entry order.  An object witness first reorders the left
entry list (`List.Perm`) and then matches entries pairwise by equal key
and structurally equal value. -/
inductive StructEq : Json → Json → Prop where
  | null : StructEq .null .null
  | bool (b : Bool) : StructEq (.bool b) (.bool b)
  | num (q : Rat) : StructEq (.num q) (.num q)
  | str (s : String) : StructEq (.str s) (.str s)
  | arr {xs ys : List Json} : StructEqList xs ys → StructEq (.arr xs) (.arr ys)
  | obj {es gs fs : List (String × Json)} : es.Perm gs → StructEqEntries gs fs →
      StructEq (.obj es) (.obj fs)

/-- `StructEq`, element by element. -/
inductive StructEqList : List Json → List Json → Prop where
  | nil : StructEqList [] []
  | cons {x y : Json} {xs ys : List Json} : StructEq x y → StructEqList xs ys →
      StructEqList (x :: xs) (y :: ys)

/-- `StructEq`, entry by entry with equal keys. -/
inductive StructEqEntries : List (String × Json) → List (String × Json) → Prop where
  | nil : StructEqEntries [] []
  | cons {k : String} {v w : Json} {es fs : List (String × Json)} : StructEq v w →
      StructEqEntries es fs → StructEqEntries ((k, v) :: es) ((k, w) :: fs)

end

/-- The standard base64 alphabet (RFC 4648, as Go's
`base64.StdEncoding`). -/
def b64Alphabet : List Char :=
  "ABCDEFGHIJKLMNOPQRSTUVWXYZabcdefghijklmnopqrstuvwxyz0123456789+/".data

/-- The alphabet character of a six-bit group. -/
def sixToChar (n : Nat) : Char := b64Alphabet.getD n 'A'

/-- The six-bit value of an alphabet character, `none` when the character
is not in the alphabet. -/
def charToSix (c : Char) : Option Nat := b64Alphabet.findIdx? (· = c)

/-- `base64.StdEncoding.EncodeToString`: three bytes become four alphabet
characters; a final group of one or two bytes is padded with `=`. -/
def base64EncodeChunks : List Nat → List Char
  | [] => []
  | [b0] => [sixToChar (b0 / 4), sixToChar (b0 % 4 * 16), '=', '=']
  | [b0, b1] => [sixToChar (b0 / 4), sixToChar (b0 % 4 * 16 + b1 / 16),
      sixToChar (b1 % 16 * 4), '=']
  | b0 :: b1 :: b2 :: rest =>
      sixToChar (b0 / 4) :: sixToChar (b0 % 4 * 16 + b1 / 16) ::
      sixToChar (b1 % 16 * 4 + b2 / 64) :: sixToChar (b2 % 64) :: base64EncodeChunks rest

/-- Base64 encoding of a byte list (bytes are naturals below 256). -/
def base64Encode (bs : List Nat) : String := ⟨base64EncodeChunks bs⟩

/-- `base64.StdEncoding.DecodeString` on the character level: four-character
groups, the last possibly padded; any character outside the alphabet (or
misplaced padding, or a group of the wrong length) rejects the input.
Go ignores the dropped low bits of a padded group, and so does this. -/
def base64DecodeChunks : List Char → Option (List Nat)
  | [] => some []
  | c0 :: c1 :: c2 :: c3 :: rest =>
    if c2 = '=' then
      if c3 = '=' ∧ rest = [] then do
        let n0 ← charToSix c0
        let n1 ← charToSix c1
        some [n0 * 4 + n1 / 16]
      else none
    else if c3 = '=' then
      if rest = [] then do
        let n0 ← charToSix c0
        let n1 ← charToSix c1
        let n2 ← charToSix c2
        some [n0 * 4 + n1 / 16, n1 % 16 * 16 + n2 / 4]
      else none
    else do
      let n0 ← charToSix c0
      let n1 ← charToSix c1
      let n2 ← charToSix c2
      let n3 ← charToSix c3
      let bs ← base64DecodeChunks rest
      some ((n0 * 4 + n1 / 16) :: (n1 % 16 * 16 + n2 / 4) :: (n2 % 4 * 64 + n3) :: bs)
  | _ => none

/-- Base64 decoding of a string; `none` models the error return of
`base64.StdEncoding.DecodeString`.  Go's decoder skips `\r` and `\n`
anywhere in the input, so they are filtered out first. -/
def base64Decode (s : String) : Option (List Nat) :=
  base64DecodeChunks (s.data.filter (fun c => ¬(c = '\n' ∨ c = '\r')))

/-- The behaviour of the external Cloud KMS collaborator over the fixed
`nameVersion` key (built once at startup; constant for the process, so not
a parameter of the calls).  `macSign data` yields MAC bytes or a call
failure; `macVerify data mac` yields the reported success boolean or a
call failure. -/
structure KmsBehavior where
  macSign : String → Except String (List Nat)
  macVerify : String → List Nat → Except String Bool

/-- One outbound collaborator call, with the data (and MAC) submitted. -/
inductive KmsCall where
  | macSign (data : String)
  | macVerify (data : String) (mac : List Nat)

/-- The JSON body a handler writes through `writeJSON`: an
`{"error": msg}` object, the sign success envelope, or the verify result
`{"valid": b}`. -/
inductive RespBody where
  | errorMsg (msg : String)
  | signed (payload : List (String × Json)) (signature : String)
  | valid (b : Bool)

/-- What a handler invocation does: write one HTTP response, or panic
(Go's net/http recovers a handler panic per request; no response body is
written). -/
inductive HandlerOutcome where
  | response (status : Nat) (body : RespBody)
  | panicked

/-- Reading and JSON-parsing the raw request body of `/sign`:
`readError` models a failing `io.ReadAll`; `readOk none` a body that is
not valid JSON; `readOk (some v)` a body whose text decodes to `v`
(the text-to-value parser of `encoding/json` is abstracted into its
result). -/
inductive BodyRead where
  | readError
  | readOk (parsed : Option Json)

/-- `json.Unmarshal(body, &payloadMap)` with `payloadMap` a
`map[string]interface{}`: a parse failure or a non-object top level is an
error — except the JSON literal `null`, which Go decodes into a nil map
without error (`.ok none` here). -/
def unmarshalToMap : Option Json → Except Unit (Option (List (String × Json)))
  | none => .error ()
  | some .null => .ok none
  | some (.obj es) => .ok (some es)
  | some _ => .error ()

/-- Go's `payloadMap["timestamp"] = v` on a decoded (distinct-key) map:
replace the binding if present, add it otherwise.  The entry list's order
is irrelevant downstream (`jsonMarshal` sorts), so the new binding is
appended after the others. -/
def mapInsert (es : List (String × Json)) (k : String) (v : Json) :
    List (String × Json) :=
  es.filter (fun p => p.1 ≠ k) ++ [(k, v)]

/-- Lookup of a key in an entry list. -/
def lookupKey : List (String × Json) → String → Option Json
  | [], _ => none
  | (k', v) :: es, k => if k' = k then some v else lookupKey es k

/-- `signHandler` of main.go.  `now` stands for
`time.Now().UTC().Format(time.RFC3339Nano)`, the clock being external.
Returns the outcome together with the collaborator calls made.  With a
nil `payloadMap` (raw body `null`) the map assignment at line 82 panics. -/
def signHandler (kms : KmsBehavior) (now : String) (method : String)
    (body : BodyRead) : HandlerOutcome × List KmsCall :=
  if method ≠ "POST" then
    (.response 405 (.errorMsg "Sólo POST permitido"), [])
  else match body with
  | .readError => (.response 400 (.errorMsg "No se pudo leer el body"), [])
  | .readOk parsed =>
    match unmarshalToMap parsed with
    | .error () => (.response 400 (.errorMsg "JSON inválido"), [])
    | .ok none => (.panicked, [])
    | .ok (some es) =>
      let payloadMap := mapInsert es "timestamp" (.str now)
      let data := jsonMarshal (.obj payloadMap)
      match kms.macSign data with
      | .error e => (.response 500 (.errorMsg ("Error firmando: " ++ e)), [.macSign data])
      | .ok mac =>
        (.response 200 (.signed payloadMap (base64Encode mac)), [.macSign data])

/-- The decoded `/verify` request envelope.  `decodeError` models a body
`json.NewDecoder(...).Decode(&req)` rejects.  On success, `payload` is the
re-parse of the raw `payload` field: `none` when the field is absent (its
`json.RawMessage` is empty, so the `json.Unmarshal` at line 128 fails),
`some v` when present — a present field is a fragment of the
already-validated body, so its re-parse always succeeds. -/
inductive VerifyBody where
  | decodeError
  | decoded (payload : Option Json) (signature : String)

/-- `verifyHandler` of main.go: re-parse the payload, canonicalize it with
the same `jsonMarshal`, base64-decode the signature, call `MacVerify`, and
report the collaborator's boolean as `{"valid": b}` with status 200. -/
def verifyHandler (kms : KmsBehavior) (method : String)
    (body : VerifyBody) : HandlerOutcome × List KmsCall :=
  if method ≠ "POST" then
    (.response 405 (.errorMsg "Sólo POST permitido"), [])
  else match body with
  | .decodeError => (.response 400 (.errorMsg "JSON inválido"), [])
  | .decoded payload sig =>
    match payload with
    | none => (.response 400 (.errorMsg "Payload inválido"), [])
    | some v =>
      let canonicalData := jsonMarshal v
      match base64Decode sig with
      | none => (.response 400 (.errorMsg "Firma Base64 inválida"), [])
      | some mac =>
        match kms.macVerify canonicalData mac with
        | .error e =>
          (.response 500 (.errorMsg ("Error verificando: " ++ e)), [.macVerify canonicalData mac])
        | .ok success =>
          (.response 200 (.valid success), [.macVerify canonicalData mac])

/-- The round-trip assumption on the collaborator, as the spec states it:
`MacVerify` (on the fixed key) accepts exactly the byte sequences its
`MacSign` signed — whenever `macSign data` produced `mac`, the MAC bytes
are genuine bytes and `macVerify data' mac` reports `true` exactly on
`data' = data`. -/
def respectsMac (kms : KmsBehavior) : Prop :=
  ∀ data mac, kms.macSign data = .ok mac →
    (∀ b ∈ mac, b < 256) ∧ ∀ data', kms.macVerify data' mac = .ok (decide (data' = data))

/-- `true` on every value that is neither an object nor `null`: the
decoded shapes on which `json.Unmarshal` into a map errors out. -/
def nonObjectNonNull : Json → Bool
  | .obj _ => false
  | .null => false
  | _ => true

/-- The canonical bytes of the test payload `{"timestamp": "T"}` used by
the concrete witnesses below. -/
def dataW : String := jsonMarshal (.obj [("timestamp", .str "T")])

/-- A concrete collaborator behaviour for witnesses: it signs exactly the
bytes `dataW` (with MAC `[7]`) and accepts exactly that (data, MAC)
pair. -/
def kmsW : KmsBehavior where
  macSign d := if d = dataW then .ok [7] else .error "no such key"
  macVerify d m := .ok (decide (d = dataW) && decide (m = [7]))

/-- A concrete collaborator behaviour whose verify call always succeeds
and reports a mismatch. -/
def kmsFalseW : KmsBehavior where
  macSign _ := .error "unused"
  macVerify _ _ := .ok false

/-- A concrete collaborator behaviour that signs any data with MAC `[7]`
and accepts everything. -/
def kmsOkW : KmsBehavior where
  macSign _ := .ok [7]
  macVerify _ _ := .ok true

/-! ### The key order: totality, transitivity, antisymmetry -/

/-- Two characters with the same codepoint are equal. -/
theorem Char.toNat_inj {a b : Char} (h : a.toNat = b.toNat) : a = b := by
  unfold Char.toNat at h
  exact Char.ext (UInt32.toNat.inj h)

theorem charListLe_total : ∀ xs ys : List Char,
    charListLe xs ys = true ∨ charListLe ys xs = true
  | [], _ => .inl rfl
  | _ :: _, [] => .inr rfl
  | a :: as, b :: bs => by
    simp only [charListLe]
    rcases Nat.lt_trichotomy a.toNat b.toNat with h | h | h
    · left; simp [h]
    · rcases charListLe_total as bs with ih | ih
      · left; simp [h, ih]
      · right; simp [h, ih]
    · right; simp [h]

theorem charListLe_trans : ∀ xs ys zs : List Char,
    charListLe xs ys = true → charListLe ys zs = true → charListLe xs zs = true
  | [], _, _ => fun _ _ => rfl
  | _ :: _, [], _ => by intro h1 _; simp [charListLe] at h1
  | _ :: _, _ :: _, [] => by intro _ h2; simp [charListLe] at h2
  | a :: as, b :: bs, c :: cs => by
    simp only [charListLe]
    intro h1 h2
    rcases Nat.lt_trichotomy a.toNat b.toNat with hab | hab | hab
    · rcases Nat.lt_trichotomy b.toNat c.toNat with hbc | hbc | hbc
      · simp [Nat.lt_trans hab hbc]
      · simp [hbc ▸ hab]
      · rw [if_neg (Nat.lt_asymm hbc), if_neg (Nat.ne_of_gt hbc)] at h2
        exact absurd h2 (by simp)
    · rcases Nat.lt_trichotomy b.toNat c.toNat with hbc | hbc | hbc
      · simp [hab ▸ hbc]
      · have hac : a.toNat = c.toNat := hab.trans hbc
        rw [if_neg (by omega), if_pos hab] at h1
        rw [if_neg (by omega), if_pos hbc] at h2
        rw [if_neg (by omega), if_pos hac]
        exact charListLe_trans as bs cs h1 h2
      · rw [if_neg (Nat.lt_asymm hbc), if_neg (Nat.ne_of_gt hbc)] at h2
        exact absurd h2 (by simp)
    · rw [if_neg (Nat.lt_asymm hab), if_neg (Nat.ne_of_gt hab)] at h1
      exact absurd h1 (by simp)

theorem charListLe_antisymm : ∀ xs ys : List Char,
    charListLe xs ys = true → charListLe ys xs = true → xs = ys
  | [], [] => fun _ _ => rfl
  | [], _ :: _ => by intro _ h2; simp [charListLe] at h2
  | _ :: _, [] => by intro h1 _; simp [charListLe] at h1
  | a :: as, b :: bs => by
    simp only [charListLe]
    intro h1 h2
    rcases Nat.lt_trichotomy a.toNat b.toNat with hab | hab | hab
    · rw [if_neg (Nat.lt_asymm hab), if_neg (Nat.ne_of_gt hab)] at h2
      exact absurd h2 (by simp)
    · rw [if_neg (by omega), if_pos hab] at h1
      rw [if_neg (by omega), if_pos hab.symm] at h2
      rw [Char.toNat_inj hab, charListLe_antisymm as bs h1 h2]
    · rw [if_neg (Nat.lt_asymm hab), if_neg (Nat.ne_of_gt hab)] at h1
      exact absurd h1 (by simp)

theorem strLe_total (a b : String) : strLe a b = true ∨ strLe b a = true :=
  charListLe_total a.data b.data

theorem strLe_trans {a b c : String} (h : strLe a b = true) (h' : strLe b c = true) :
    strLe a c = true :=
  charListLe_trans a.data b.data c.data h h'

theorem strLe_antisymm {a b : String} (h : strLe a b = true) (h' : strLe b a = true) :
    a = b :=
  String.ext (charListLe_antisymm a.data b.data h h')

/-! ### Sorting entry lists by key -/

theorem sortEntries_perm (l : List (String × Json)) : (sortEntries l).Perm l :=
  List.perm_insertionSort keyLe l

theorem sortEntries_sorted (l : List (String × Json)) : (sortEntries l).Sorted keyLe := by
  haveI : IsTotal (String × Json) keyLe := ⟨fun a b => strLe_total a.1 b.1⟩
  haveI : IsTrans (String × Json) keyLe := ⟨fun _ _ _ h h' => strLe_trans h h'⟩
  exact List.sorted_insertionSort keyLe l

/-- Two entry lists with the same bindings (a permutation) and distinct
keys sort identically: the sorted order of distinct keys is unique. -/
theorem sortEntries_eq_of_perm {l₁ l₂ : List (String × Json)} (hp : l₁.Perm l₂)
    (hn : (l₁.map Prod.fst).Nodup) : sortEntries l₁ = sortEntries l₂ := by
  haveI : IsAntisymm (String × Json) keyLt :=
    ⟨fun a b h h' => absurd (strLe_antisymm h.1 h'.1) h.2⟩
  have hp₁ : (sortEntries l₁).Perm l₁ := sortEntries_perm l₁
  have hp₂ : (sortEntries l₂).Perm l₂ := sortEntries_perm l₂
  have hperm : (sortEntries l₁).Perm (sortEntries l₂) := hp₁.trans (hp.trans hp₂.symm)
  have hn₁ : ((sortEntries l₁).map Prod.fst).Nodup := ((hp₁.map Prod.fst).nodup_iff).mpr hn
  have hn₂ : ((sortEntries l₂).map Prod.fst).Nodup :=
    ((hperm.map Prod.fst).nodup_iff).mp hn₁
  have hs₁ : (sortEntries l₁).Pairwise keyLt := by
    have hne : (sortEntries l₁).Pairwise (fun a b => a.1 ≠ b.1) := List.pairwise_map.mp hn₁
    exact ((sortEntries_sorted l₁).and hne).imp fun h => ⟨h.1, h.2⟩
  have hs₂ : (sortEntries l₂).Pairwise keyLt := by
    have hne : (sortEntries l₂).Pairwise (fun a b => a.1 ≠ b.1) := List.pairwise_map.mp hn₂
    exact ((sortEntries_sorted l₂).and hne).imp fun h => ⟨h.1, h.2⟩
  exact List.eq_of_perm_of_sorted hperm hs₁ hs₂

/-! ### Canonicalization respects structural equality -/

theorem canonEntries_eq_map (es : List (String × Json)) :
    canonEntries es = es.map (fun p => (p.1, canon p.2)) := by
  induction es with
  | nil => rfl
  | cons p es ih => cases p; simp [canonEntries, ih]

theorem canonList_eq_map (xs : List Json) : canonList xs = xs.map canon := by
  induction xs with
  | nil => rfl
  | cons x xs ih => simp [canonList, ih]

theorem canonEntries_keys (es : List (String × Json)) :
    (canonEntries es).map Prod.fst = es.map Prod.fst := by
  rw [canonEntries_eq_map, List.map_map]
  rfl

theorem keyNodup_iff (es : List (String × Json)) :
    keyNodup es = true ↔ (es.map Prod.fst).Nodup := by
  induction es with
  | nil => simp [keyNodup]
  | cons p es ih =>
    obtain ⟨k, v⟩ := p
    simp [keyNodup, List.nodup_cons, Bool.and_eq_true, ih,
      Bool.not_eq_true', List.any_eq_false, List.mem_map, beq_iff_eq]
    intro _
    constructor
    · intro h x hm
      exact h k x hm rfl
    · intro h a b hm ha
      exact h b (ha ▸ hm)

theorem nodupKeysEntries_iff (es : List (String × Json)) :
    nodupKeysEntries es = true ↔ ∀ p ∈ es, nodupKeys p.2 = true := by
  induction es with
  | nil => simp [nodupKeysEntries]
  | cons p es ih => cases p; simp [nodupKeysEntries, ih]

theorem nodupKeysEntries_perm {es gs : List (String × Json)} (hp : es.Perm gs)
    (h : nodupKeysEntries es = true) : nodupKeysEntries gs = true := by
  rw [nodupKeysEntries_iff] at h ⊢
  exact fun p hm => h p (hp.mem_iff.mpr hm)

mutual

/-- Canonicalization is determined by the logical content: two
structurally equal decoded values (distinct keys, as any decoded value
has) canonicalize to the same value. -/
theorem canon_eq_of_structEq : ∀ {a b : Json}, StructEq a b → nodupKeys a = true →
    canon a = canon b
  | _, _, .null, _ => rfl
  | _, _, .bool _, _ => rfl
  | _, _, .num _, _ => rfl
  | _, _, .str _, _ => rfl
  | _, _, .arr h, hn => by
    simp only [canon]
    exact congrArg Json.arr (canonList_eq_of_structEqList h hn)
  | _, _, @StructEq.obj es gs fs hp he, hn => by
    simp only [canon]
    rw [nodupKeys, Bool.and_eq_true] at hn
    have hvals : nodupKeysEntries gs = true := nodupKeysEntries_perm hp hn.2
    have h1 : canonEntries gs = canonEntries fs :=
      canonEntries_eq_of_structEqEntries he hvals
    have hp' : (canonEntries es).Perm (canonEntries gs) := by
      rw [canonEntries_eq_map, canonEntries_eq_map]
      exact hp.map _
    have hkeys : ((canonEntries es).map Prod.fst).Nodup := by
      rw [canonEntries_keys]
      exact (keyNodup_iff es).mp hn.1
    exact congrArg Json.obj (sortEntries_eq_of_perm (h1 ▸ hp') hkeys)

theorem canonList_eq_of_structEqList : ∀ {xs ys : List Json}, StructEqList xs ys →
    nodupKeysList xs = true → canonList xs = canonList ys
  | _, _, .nil, _ => rfl
  | _, _, .cons h hs, hn => by
    rw [nodupKeysList, Bool.and_eq_true] at hn
    simp only [canonList]
    rw [canon_eq_of_structEq h hn.1, canonList_eq_of_structEqList hs hn.2]

theorem canonEntries_eq_of_structEqEntries : ∀ {es fs : List (String × Json)},
    StructEqEntries es fs → nodupKeysEntries es = true → canonEntries es = canonEntries fs
  | _, _, .nil, _ => rfl
  | _, _, .cons h hs, hn => by
    rw [nodupKeysEntries, Bool.and_eq_true] at hn
    simp only [canonEntries]
    rw [canon_eq_of_structEq h hn.1, canonEntries_eq_of_structEqEntries hs hn.2]

end

/-- `jsonMarshal` is determined by the logical content of the value. -/
theorem jsonMarshal_eq_of_structEq {a b : Json} (h : StructEq a b)
    (hn : nodupKeys a = true) : jsonMarshal a = jsonMarshal b := by
  rw [jsonMarshal, jsonMarshal, canon_eq_of_structEq h hn]

/-! ### Base64: decoding inverts encoding -/

theorem sixToChar_mem (n : Nat) : sixToChar n ∈ b64Alphabet := by
  unfold sixToChar
  rcases Nat.lt_or_ge n b64Alphabet.length with h | h
  · rw [List.getD_eq_getElem _ _ h]
    exact List.getElem_mem _
  · rw [List.getD_eq_default _ _ h]
    decide

theorem charToSix_sixToChar {n : Nat} (h : n < 64) : charToSix (sixToChar n) = some n := by
  have key : ∀ m : Fin 64, charToSix (sixToChar m.val) = some m.val := by decide
  exact key ⟨n, h⟩

theorem sixToChar_ne_pad (n : Nat) : sixToChar n ≠ '=' :=
  fun e => absurd (e ▸ sixToChar_mem n) (by decide)

/-- Every character the encoder emits is padding or an alphabet
character. -/
theorem encodeChunks_valid : ∀ bs : List Nat, ∀ c ∈ base64EncodeChunks bs,
    c = '=' ∨ c ∈ b64Alphabet
  | [], c, hc => by simp [base64EncodeChunks] at hc
  | [b0], c, hc => by
    simp only [base64EncodeChunks, List.mem_cons, List.not_mem_nil, or_false] at hc
    rcases hc with h | h | h | h <;> subst h <;>
      first
      | exact .inr (sixToChar_mem _)
      | exact .inl rfl
  | [b0, b1], c, hc => by
    simp only [base64EncodeChunks, List.mem_cons, List.not_mem_nil, or_false] at hc
    rcases hc with h | h | h | h <;> subst h <;>
      first
      | exact .inr (sixToChar_mem _)
      | exact .inl rfl
  | b0 :: b1 :: b2 :: rest, c, hc => by
    simp only [base64EncodeChunks, List.mem_cons] at hc
    rcases hc with h | h | h | h | h
    · exact h ▸ .inr (sixToChar_mem _)
    · exact h ▸ .inr (sixToChar_mem _)
    · exact h ▸ .inr (sixToChar_mem _)
    · exact h ▸ .inr (sixToChar_mem _)
    · exact encodeChunks_valid rest c h

/-- The decoder's `\r`/`\n` skipping never touches an encoder output. -/
theorem encodeChunks_filter (bs : List Nat) :
    (base64EncodeChunks bs).filter (fun c => ¬(c = '\n' ∨ c = '\r')) =
      base64EncodeChunks bs := by
  rw [List.filter_eq_self]
  intro c hc
  rcases encodeChunks_valid bs c hc with h | h
  · subst h; decide
  · have h1 : c ≠ '\n' := fun e => absurd (e ▸ h) (by decide)
    have h2 : c ≠ '\r' := fun e => absurd (e ▸ h) (by decide)
    simp [h1, h2]

theorem decodeChunks_encodeChunks : ∀ bs : List Nat, (∀ b ∈ bs, b < 256) →
    base64DecodeChunks (base64EncodeChunks bs) = some bs
  | [], _ => rfl
  | [b0], h => by
    have hb0 : b0 < 256 := h b0 (by simp)
    simp only [base64EncodeChunks, base64DecodeChunks]
    rw [if_pos trivial, if_pos ⟨trivial, trivial⟩,
      charToSix_sixToChar (show b0 / 4 < 64 by omega),
      charToSix_sixToChar (show b0 % 4 * 16 < 64 by omega)]
    simp only [Option.bind_eq_bind, Option.some_bind, Option.some.injEq, List.cons.injEq, and_true]
    omega
  | [b0, b1], h => by
    have hb0 : b0 < 256 := h b0 (by simp)
    have hb1 : b1 < 256 := h b1 (by simp)
    simp only [base64EncodeChunks, base64DecodeChunks]
    rw [if_neg (sixToChar_ne_pad (b1 % 16 * 4)), if_pos trivial, if_pos trivial,
      charToSix_sixToChar (show b0 / 4 < 64 by omega),
      charToSix_sixToChar (show b0 % 4 * 16 + b1 / 16 < 64 by omega),
      charToSix_sixToChar (show b1 % 16 * 4 < 64 by omega)]
    simp only [Option.bind_eq_bind, Option.some_bind, Option.some.injEq, List.cons.injEq, and_true]
    omega
  | b0 :: b1 :: b2 :: rest, h => by
    have hb0 : b0 < 256 := h b0 (by simp)
    have hb1 : b1 < 256 := h b1 (by simp)
    have hb2 : b2 < 256 := h b2 (by simp)
    have hrest : ∀ b ∈ rest, b < 256 := fun b hb => h b (by simp [hb])
    simp only [base64EncodeChunks, base64DecodeChunks]
    rw [if_neg (sixToChar_ne_pad (b1 % 16 * 4 + b2 / 64)),
      if_neg (sixToChar_ne_pad (b2 % 64)),
      charToSix_sixToChar (show b0 / 4 < 64 by omega),
      charToSix_sixToChar (show b0 % 4 * 16 + b1 / 16 < 64 by omega),
      charToSix_sixToChar (show b1 % 16 * 4 + b2 / 64 < 64 by omega),
      charToSix_sixToChar (show b2 % 64 < 64 by omega),
      decodeChunks_encodeChunks rest hrest]
    simp only [Option.bind_eq_bind, Option.some_bind, Option.some.injEq, List.cons.injEq, and_true]
    omega

/-- Decoding a freshly encoded MAC gives back the MAC bytes: the verify
path recovers exactly what the sign path base64-encoded. -/
theorem base64_roundtrip (bs : List Nat) (h : ∀ b ∈ bs, b < 256) :
    base64Decode (base64Encode bs) = some bs := by
  show base64DecodeChunks ((base64EncodeChunks bs).filter _) = some bs
  rw [encodeChunks_filter, decodeChunks_encodeChunks bs h]


/-! ### Map insertion and lookup -/

theorem lookupKey_append_right {es : List (String × Json)} {k : String}
    (h : ∀ p ∈ es, p.1 ≠ k) (tail : List (String × Json)) :
    lookupKey (es ++ tail) k = lookupKey tail k := by
  induction es with
  | nil => rfl
  | cons p es ih =>
    obtain ⟨k', v⟩ := p
    have hk : k' ≠ k := h (k', v) (by simp)
    simp only [List.cons_append, lookupKey, if_neg hk]
    exact ih fun q hq => h q (by simp [hq])

theorem lookupKey_mapInsert_self (es : List (String × Json)) (k : String) (v : Json) :
    lookupKey (mapInsert es k v) k = some v := by
  rw [mapInsert, lookupKey_append_right]
  · simp [lookupKey]
  · intro p hp
    have := (List.mem_filter.mp hp).2
    simpa using this

theorem lookupKey_mapInsert_other (es : List (String × Json)) (k k' : String) (v : Json)
    (h : k' ≠ k) : lookupKey (mapInsert es k v) k' = lookupKey es k' := by
  rw [mapInsert]
  induction es with
  | nil => simp [lookupKey, Ne.symm h]
  | cons p es ih =>
    obtain ⟨k₀, v₀⟩ := p
    rw [List.filter_cons]
    by_cases hk : k₀ = k
    · rw [if_neg (by simp [hk])]
      rw [ih]
      simp [lookupKey, hk, Ne.symm h]
    · rw [if_pos (by simp [hk])]
      simp only [List.cons_append, lookupKey]
      by_cases hk' : k₀ = k'
      · simp [hk']
      · simp only [decide_not] at ih
        simp [hk', ih]

/-! ### Handler inversion and witness collaborator facts -/

/-- Inversion of a successful sign: the returned payload is the input
with the timestamp binding inserted, and the signature is the base64 of a
MAC the collaborator produced on the canonical bytes. -/
theorem signHandler_ok {kms : KmsBehavior} {now : String}
    {es p : List (String × Json)} {s : String}
    (h : (signHandler kms now "POST" (.readOk (some (.obj es)))).1 =
      .response 200 (.signed p s)) :
    p = mapInsert es "timestamp" (.str now) ∧
    ∃ mac, kms.macSign (jsonMarshal (.obj (mapInsert es "timestamp" (.str now)))) = .ok mac ∧
      s = base64Encode mac := by
  simp only [signHandler, unmarshalToMap] at h
  cases hms : kms.macSign (jsonMarshal (.obj (mapInsert es "timestamp" (.str now)))) with
  | error e =>
    rw [hms, if_neg (by simp)] at h
    exact absurd h (by simp)
  | ok mac =>
    rw [hms, if_neg (by simp)] at h
    injection h with hstat hbody
    injection hbody with hp hs
    exact ⟨hp.symm, mac, rfl, hs.symm⟩

/-- The witness collaborator honours the round-trip assumption. -/
theorem kmsW_respects : respectsMac kmsW := by
  intro data mac h
  simp only [kmsW] at h
  by_cases hd : data = dataW
  · rw [if_pos hd] at h
    injection h with h'
    subst hd h'
    refine ⟨by decide, fun d' => ?_⟩
    simp [kmsW]
  · rw [if_neg hd] at h
    exact absurd h (by simp)

/-! ### Structural equality is reflexive (used by concrete witnesses) -/

mutual

theorem structEq_refl : ∀ a : Json, StructEq a a
  | .null => .null
  | .bool b => .bool b
  | .num q => .num q
  | .str s => .str s
  | .arr xs => .arr (structEqList_refl xs)
  | .obj es => .obj (List.Perm.refl es) (structEqEntries_refl es)

theorem structEqList_refl : ∀ xs : List Json, StructEqList xs xs
  | [] => .nil
  | x :: xs => .cons (structEq_refl x) (structEqList_refl xs)

theorem structEqEntries_refl : ∀ es : List (String × Json), StructEqEntries es es
  | [] => .nil
  | (_, v) :: es => .cons (structEq_refl v) (structEqEntries_refl es)

end

/-! ### The claims -/

/-- C1: canonical determinism.  (1) Any two decoded values that are
structurally equal (same object key/value content regardless of source
key order — whitespace never reaches the decoded value — same array
order, same scalars) marshal to identical bytes; (2) the sign path
submits to the collaborator exactly the `jsonMarshal` bytes of the
timestamped payload; (3) the verify path submits exactly the
`jsonMarshal` bytes of the re-parsed payload: one identical
canonicalization on both paths. -/
theorem canonical_determinism :
    (∀ a b : Json, nodupKeys a = true → StructEq a b → jsonMarshal a = jsonMarshal b) ∧
    (∀ (kms : KmsBehavior) (now : String) (es : List (String × Json)),
      (signHandler kms now "POST" (.readOk (some (.obj es)))).2 =
        [.macSign (jsonMarshal (.obj (mapInsert es "timestamp" (.str now))))]) ∧
    (∀ (kms : KmsBehavior) (v : Json) (sig : String) (mac : List Nat),
      base64Decode sig = some mac →
      (verifyHandler kms "POST" (.decoded (some v) sig)).2 =
        [.macVerify (jsonMarshal v) mac]) := by
  refine ⟨fun a b hn h => jsonMarshal_eq_of_structEq h hn,
    fun kms now es => ?_, fun kms v sig mac hdec => ?_⟩
  · simp only [signHandler, unmarshalToMap, if_neg (show ¬("POST" ≠ "POST") by simp)]
    cases kms.macSign (jsonMarshal (.obj (mapInsert es "timestamp" (.str now)))) <;> rfl
  · simp only [verifyHandler, if_neg (show ¬("POST" ≠ "POST") by simp), hdec]
    cases kms.macVerify (jsonMarshal v) mac <;> rfl

/-- C1 witness: the spec's own example `{"b":2,"a":1}` vs `{"a":1,"b":2}`,
plus both paths' submitted bytes at concrete inputs. -/
theorem canonical_determinism_witness :
    jsonMarshal (.obj [("b", .num 2), ("a", .num 1)]) =
      jsonMarshal (.obj [("a", .num 1), ("b", .num 2)]) ∧
    (signHandler kmsW "T" "POST" (.readOk (some (.obj [])))).2 =
      [.macSign (jsonMarshal (.obj (mapInsert [] "timestamp" (.str "T"))))] ∧
    (verifyHandler kmsW "POST" (.decoded (some .null) "Bw==")).2 =
      [.macVerify (jsonMarshal .null) [7]] :=
  ⟨canonical_determinism.1 (.obj [("b", .num 2), ("a", .num 1)])
      (.obj [("a", .num 1), ("b", .num 2)]) (by decide)
      (.obj (List.Perm.swap ("a", Json.num 1) ("b", Json.num 2) [])
        (structEqEntries_refl [("a", Json.num 1), ("b", Json.num 2)])),
    canonical_determinism.2.1 kmsW "T" [],
    canonical_determinism.2.2 kmsW .null "Bw==" [7] rfl⟩

/-- C2: round-trip verify.  If `Sign` of an object payload succeeds with
envelope (payload', signature), then — assuming the collaborator's
`MacVerify` accepts exactly the byte sequences its `MacSign` signed —
`Verify(payload', signature)` reports 200 with `valid = true`: the verify
path's canonicalization of the returned payload reproduces the signed
bytes. -/
theorem round_trip_verify (kms : KmsBehavior) (now : String)
    (es p : List (String × Json)) (s : String)
    (hkms : respectsMac kms)
    (hsig : (signHandler kms now "POST" (.readOk (some (.obj es)))).1 =
      .response 200 (.signed p s)) :
    (verifyHandler kms "POST" (.decoded (some (.obj p)) s)).1 =
      .response 200 (.valid true) := by
  obtain ⟨hp, mac, hms, hs⟩ := signHandler_ok hsig
  obtain ⟨hbytes, hver⟩ := hkms _ mac hms
  subst hp hs
  simp only [verifyHandler, if_neg (show ¬("POST" ≠ "POST") by simp),
    base64_roundtrip mac hbytes, hver]
  simp

/-- C2 witness: a concrete signed envelope verifies. -/
theorem round_trip_verify_witness :
    (verifyHandler kmsW "POST"
      (.decoded (some (.obj (mapInsert [] "timestamp" (.str "T")))) (base64Encode [7]))).1 =
      .response 200 (.valid true) :=
  round_trip_verify kmsW "T" [] (mapInsert [] "timestamp" (.str "T")) (base64Encode [7])
    kmsW_respects rfl

/-- C3: tamper detection.  For an envelope produced by a successful Sign
and any value whose canonical bytes differ from the signed payload's —
every mutation of a payload field changes the canonical bytes — Verify
answers HTTP 200 with `valid = false`, not an error, assuming the
collaborator reports `false` on any data other than the signed bytes. -/
theorem tamper_detection (kms : KmsBehavior) (now : String)
    (es p : List (String × Json)) (s : String) (tampered : Json)
    (hkms : respectsMac kms)
    (hsig : (signHandler kms now "POST" (.readOk (some (.obj es)))).1 =
      .response 200 (.signed p s))
    (hdiff : jsonMarshal tampered ≠ jsonMarshal (.obj p)) :
    (verifyHandler kms "POST" (.decoded (some tampered) s)).1 =
      .response 200 (.valid false) := by
  obtain ⟨hp, mac, hms, hs⟩ := signHandler_ok hsig
  obtain ⟨hbytes, hver⟩ := hkms _ mac hms
  subst hp hs
  simp only [verifyHandler, if_neg (show ¬("POST" ≠ "POST") by simp),
    base64_roundtrip mac hbytes, hver, decide_eq_false hdiff]

/-- C3 witness: flipping the timestamp value makes the concrete envelope
verify to `valid = false` with status 200. -/
theorem tamper_detection_witness :
    (verifyHandler kmsW "POST"
      (.decoded (some (.obj [("timestamp", .str "X")])) (base64Encode [7]))).1 =
      .response 200 (.valid false) :=
  tamper_detection kmsW "T" [] (mapInsert [] "timestamp" (.str "T")) (base64Encode [7])
    (.obj [("timestamp", .str "X")]) kmsW_respects rfl (by decide)

/-- C4: what the code actually does on a valid-JSON non-object body.  A
bare array, string, number or boolean is rejected with 400 (the code's
single "JSON inválido" error) and the collaborator is never called — but
the body `null` decodes into a nil map without error, and the timestamp
assignment then panics (Go: assignment to entry in nil map), so no 400
response is produced for it, contradicting the claim. -/
theorem sign_nonobject_behavior (kms : KmsBehavior) (now : String) :
    signHandler kms now "POST" (.readOk (some .null)) = (.panicked, []) ∧
    ∀ v : Json, nonObjectNonNull v = true →
      signHandler kms now "POST" (.readOk (some v)) =
        (.response 400 (.errorMsg "JSON inválido"), []) := by
  refine ⟨rfl, fun v hv => ?_⟩
  cases v with
  | null => simp [nonObjectNonNull] at hv
  | obj es => simp [nonObjectNonNull] at hv
  | bool b => rfl
  | num q => rfl
  | str s => rfl
  | arr xs => rfl

/-- C4 witness: the panic at the concrete body `null`, and the 400 at the
concrete body `[]`. -/
theorem sign_nonobject_behavior_witness :
    signHandler kmsW "T" "POST" (.readOk (some .null)) = (.panicked, []) ∧
    signHandler kmsW "T" "POST" (.readOk (some (.arr []))) =
      (.response 400 (.errorMsg "JSON inválido"), []) :=
  ⟨(sign_nonobject_behavior kmsW "T").1,
    (sign_nonobject_behavior kmsW "T").2 (.arr []) (by decide)⟩

/-- C5: a MAC mismatch is not an error.  When the payload parses and the
signature base64-decodes, a successful collaborator call yields HTTP 200
with exactly the reported boolean (in particular `valid = false` on a
mismatch), and only a failing collaborator call yields the 500
response. -/
theorem mac_mismatch_not_error (kms : KmsBehavior) (v : Json) (sig : String)
    (mac : List Nat) (hdec : base64Decode sig = some mac) :
    (∀ b, kms.macVerify (jsonMarshal v) mac = .ok b →
      verifyHandler kms "POST" (.decoded (some v) sig) =
        (.response 200 (.valid b), [.macVerify (jsonMarshal v) mac])) ∧
    (∀ e, kms.macVerify (jsonMarshal v) mac = .error e →
      verifyHandler kms "POST" (.decoded (some v) sig) =
        (.response 500 (.errorMsg ("Error verificando: " ++ e)),
          [.macVerify (jsonMarshal v) mac])) := by
  constructor
  · intro b hb
    simp [verifyHandler, hdec, hb]
  · intro e he
    simp [verifyHandler, hdec, he]

/-- C5 witness: a collaborator that reports a mismatch yields 200 and
`valid = false` at a concrete request. -/
theorem mac_mismatch_not_error_witness :
    verifyHandler kmsFalseW "POST" (.decoded (some .null) "Bw==") =
      (.response 200 (.valid false), [.macVerify (jsonMarshal .null) [7]]) :=
  (mac_mismatch_not_error kmsFalseW .null "Bw==" [7] rfl).1 false rfl

/-- C6: an invalid base64 signature fails with 400 "Firma Base64
inválida" after the payload parsed, and the collaborator is never called
(the call list is empty). -/
theorem invalid_signature_encoding (kms : KmsBehavior) (v : Json) (sig : String)
    (hsig : base64Decode sig = none) :
    verifyHandler kms "POST" (.decoded (some v) sig) =
      (.response 400 (.errorMsg "Firma Base64 inválida"), []) := by
  simp [verifyHandler, hsig]

/-- C6 witness: `%%%` is not base64. -/
theorem invalid_signature_encoding_witness :
    verifyHandler kmsW "POST" (.decoded (some .null) "%%%") =
      (.response 400 (.errorMsg "Firma Base64 inválida"), []) :=
  invalid_signature_encoding kmsW .null "%%%" rfl

/-- C7: timestamp injection preserves the other fields.  A payload
accepted by Sign comes back with `timestamp` bound to the injected
current-time string (`now` models
`time.Now().UTC().Format(time.RFC3339Nano)`), overwriting any
client-supplied binding, and every other key keeps exactly its input
value. -/
theorem timestamp_injection (kms : KmsBehavior) (now : String)
    (es p : List (String × Json)) (s : String)
    (hsig : (signHandler kms now "POST" (.readOk (some (.obj es)))).1 =
      .response 200 (.signed p s)) :
    lookupKey p "timestamp" = some (.str now) ∧
    ∀ k, k ≠ "timestamp" → lookupKey p k = lookupKey es k := by
  obtain ⟨hp, -⟩ := signHandler_ok hsig
  subst hp
  exact ⟨lookupKey_mapInsert_self es "timestamp" (.str now),
    fun k hk => lookupKey_mapInsert_other es "timestamp" k (.str now) hk⟩

/-- C7 witness: at the concrete signed payload, `timestamp` is bound to
the injected value and an unrelated key is unchanged. -/
theorem timestamp_injection_witness :
    lookupKey (mapInsert [("x", Json.num 1)] "timestamp" (.str "T")) "timestamp" =
      some (.str "T") ∧
    lookupKey (mapInsert [("x", Json.num 1)] "timestamp" (.str "T")) "x" =
      lookupKey [("x", Json.num 1)] "x" :=
  ⟨(timestamp_injection kmsOkW "T" [("x", Json.num 1)]
      (mapInsert [("x", Json.num 1)] "timestamp" (.str "T")) (base64Encode [7]) rfl).1,
   (timestamp_injection kmsOkW "T" [("x", Json.num 1)]
      (mapInsert [("x", Json.num 1)] "timestamp" (.str "T")) (base64Encode [7]) rfl).2
      "x" (by decide)⟩

/-- C8: method enforcement.  Any method other than POST is answered 405
with a JSON error body by both handlers, whatever the request body, and
no collaborator call is made: the body is never consulted. -/
theorem method_enforcement (m : String) (hm : m ≠ "POST") (kms : KmsBehavior)
    (now : String) (body : BodyRead) (vbody : VerifyBody) :
    signHandler kms now m body = (.response 405 (.errorMsg "Sólo POST permitido"), []) ∧
    verifyHandler kms m vbody = (.response 405 (.errorMsg "Sólo POST permitido"), []) := by
  rw [signHandler.eq_def, verifyHandler.eq_def, if_pos hm, if_pos hm]
  exact ⟨rfl, rfl⟩

/-- C8 witness: a GET request. -/
theorem method_enforcement_witness :
    signHandler kmsW "T" "GET" .readError =
      (.response 405 (.errorMsg "Sólo POST permitido"), []) ∧
    verifyHandler kmsW "GET" .decodeError =
      (.response 405 (.errorMsg "Sólo POST permitido"), []) :=
  method_enforcement "GET" (by decide) kmsW "T" .readError .decodeError

/-- C9: a missing `payload` field (empty raw message) makes the re-parse
fail: 400 "Payload inválido" with no collaborator call; a present
`payload` equal to JSON `null` is accepted and canonicalized to the bytes
`null`, which are submitted to the collaborator. -/
theorem missing_payload_field (kms : KmsBehavior) (sig : String) :
    verifyHandler kms "POST" (.decoded none sig) =
      (.response 400 (.errorMsg "Payload inválido"), []) ∧
    ∀ mac, base64Decode sig = some mac →
      (verifyHandler kms "POST" (.decoded (some .null) sig)).2 =
        [.macVerify "null" mac] := by
  refine ⟨rfl, fun mac hdec => ?_⟩
  simp only [verifyHandler, if_neg (show ¬("POST" ≠ "POST") by simp), hdec]
  cases kms.macVerify (jsonMarshal .null) mac <;> rfl

/-- C9 witness: a concrete absent field, and a concrete `null` payload
whose canonical bytes `null` reach the collaborator. -/
theorem missing_payload_field_witness :
    verifyHandler kmsW "POST" (.decoded none "sig") =
      (.response 400 (.errorMsg "Payload inválido"), []) ∧
    (verifyHandler kmsW "POST" (.decoded (some .null) "Bw==")).2 =
      [.macVerify "null" [7]] :=
  ⟨(missing_payload_field kmsW "sig").1,
    (missing_payload_field kmsW "Bw==").2 [7] rfl⟩
